import Mathlib

/-!
Verification of a shared two-party savings ledger: a relational store
(profiles and savings tables with row-level security policies) and the
client component that loads rows, aggregates totals, and submits inserts
and deletes. The store and client are modelled as pure functions over
explicit state; the ambient authenticated identity is threaded as an
explicit Option parameter.
-/

namespace Tabungan

/-- Identifier of an authenticated account (a uuid in the schema). -/
abbrev Uid := String

/-- Row of the profiles table: id uuid primary key referencing the auth
identity, name text not null, created_at timestamptz (modelled as Nat). -/
structure Profile where
  id : Uid
  name : String
  created_at : Nat
deriving DecidableEq

/-- Row of the savings table: id uuid primary key, user_id uuid referencing
profiles, amount numeric, description text, created_at timestamptz. -/
structure Saving where
  id : String
  user_id : Uid
  amount : Rat
  description : String
  created_at : Nat
deriving DecidableEq

/-- The relational store: both tables. -/
structure Store where
  profiles : List Profile
  savings : List Saving
deriving DecidableEq

/-- The store before any statement has run. -/
def emptyStore : Store := { profiles := [], savings := [] }

/-- Errors surfaced by the storage engine on a rejected statement. -/
inductive StoreError where
  | rlsViolation : StoreError
  | checkViolation : StoreError
  | fkViolation : StoreError
  | pkViolation : StoreError
deriving DecidableEq

/-- Policy on profiles FOR SELECT TO authenticated USING (true): every row is
visible to any authenticated caller; an unauthenticated caller matches no
policy, so no row is visible. -/
def profilesSelectPolicy (auth : Option Uid) (_row : Profile) : Bool :=
  auth.isSome

/-- Policy on savings FOR SELECT TO authenticated USING (true). -/
def savingsSelectPolicy (auth : Option Uid) (_row : Saving) : Bool :=
  auth.isSome

/-- Policy on savings FOR INSERT TO authenticated WITH CHECK
(auth.uid() = user_id). -/
def savingsInsertPolicy (auth : Option Uid) (userId : Uid) : Bool :=
  match auth with
  | some uid => uid == userId
  | none => false

/-- Policy on savings FOR DELETE TO authenticated USING
(auth.uid() = user_id). -/
def savingsDeletePolicy (auth : Option Uid) (row : Saving) : Bool :=
  match auth with
  | some uid => uid == row.user_id
  | none => false

/-- Policy on profiles FOR INSERT TO authenticated WITH CHECK
(auth.uid() = id). -/
def profilesInsertPolicy (auth : Option Uid) (id : Uid) : Bool :=
  match auth with
  | some uid => uid == id
  | none => false

/-- Policy on profiles FOR UPDATE TO authenticated USING (auth.uid() = id)
WITH CHECK (auth.uid() = id). -/
def profilesUpdatePolicy (auth : Option Uid) (row : Profile) : Bool :=
  match auth with
  | some uid => uid == row.id
  | none => false

instance : DecidableRel (fun a b : Profile => a.created_at ≤ b.created_at) :=
  fun a b => Nat.decLe a.created_at b.created_at

instance : DecidableRel (fun a b : Saving => b.created_at ≤ a.created_at) :=
  fun a b => Nat.decLe b.created_at a.created_at

/-- SELECT star FROM profiles ORDER BY created_at: the policy-visible rows
sorted by creation time ascending. -/
def selectProfilesAsc (auth : Option Uid) (s : Store) : List Profile :=
  List.insertionSort (fun a b => a.created_at ≤ b.created_at)
    (s.profiles.filter (profilesSelectPolicy auth))

/-- SELECT star FROM profiles WHERE id = uid with maybeSingle: at most one row
since id is the primary key; none both when no such row is visible and when
the caller is unauthenticated. -/
def selectOwnProfile (auth : Option Uid) (uid : Uid) (s : Store) : Option Profile :=
  (s.profiles.filter (profilesSelectPolicy auth)).find? (fun p => p.id == uid)

/-- SELECT star FROM savings ORDER BY created_at DESC: the policy-visible rows
sorted by creation time descending (newest first). -/
def selectSavingsDesc (auth : Option Uid) (s : Store) : List Saving :=
  List.insertionSort (fun a b => b.created_at ≤ a.created_at)
    (s.savings.filter (savingsSelectPolicy auth))

/-- Payload of a client insert into savings: id and created_at are assigned by
the server. The amount is the parsed number; none models a value that is not
a number (a failed parse), which cannot satisfy the positivity check. -/
structure SavingInsert where
  user_id : Uid
  amount : Option Rat
  description : String
deriving DecidableEq

/-- INSERT INTO savings: rejected unless the insert policy accepts the row
(auth.uid() = user_id), the amount is a number satisfying CHECK (amount > 0),
and user_id references an existing profile (foreign key). On success the new
row carries the server-assigned id and timestamp. A rejected insert creates
no row. -/
def insertSaving (auth : Option Uid) (req : SavingInsert) (newId : String)
    (now : Nat) (s : Store) : Except StoreError Store :=
  if ¬ savingsInsertPolicy auth req.user_id then .error .rlsViolation
  else
    match req.amount with
    | none => .error .checkViolation
    | some q =>
      if q ≤ 0 then .error .checkViolation
      else if ¬ s.profiles.any (fun p => p.id == req.user_id) then .error .fkViolation
      else .ok { s with savings :=
        { id := newId, user_id := req.user_id, amount := q,
          description := req.description, created_at := now } :: s.savings }

/-- DELETE FROM savings WHERE id = targetId. Row-level security restricts the
statement to rows satisfying the delete policy; invisible or denied rows are
simply not affected. The statement always succeeds and reports the number of
rows removed, so a denied delete is indistinguishable from deleting an absent
id: both affect zero rows. -/
def deleteSaving (auth : Option Uid) (targetId : String) (s : Store) :
    Except StoreError (Store × Nat) :=
  let hit := fun (r : Saving) => r.id == targetId && savingsDeletePolicy auth r
  .ok ({ s with savings := s.savings.filter (fun r => ! hit r) },
       (s.savings.filter hit).length)

/-- Payload of a profile insert: created_at is assigned by the server. -/
structure ProfileInsert where
  id : Uid
  name : String
deriving DecidableEq

/-- INSERT INTO profiles: policy WITH CHECK (auth.uid() = id); id is the
primary key, so inserting an id that already exists is rejected. -/
def insertProfile (auth : Option Uid) (req : ProfileInsert) (now : Nat)
    (s : Store) : Except StoreError Store :=
  if ¬ profilesInsertPolicy auth req.id then .error .rlsViolation
  else if s.profiles.any (fun p => p.id == req.id) then .error .pkViolation
  else .ok { s with profiles :=
    { id := req.id, name := req.name, created_at := now } :: s.profiles }

/-- UPDATE profiles SET name = newName WHERE id = target: the update policy
restricts the statement to rows with auth.uid() = id, and the updated row
keeps its id, so a row passing USING also passes WITH CHECK. Reports the
number of rows updated. -/
def updateProfileName (auth : Option Uid) (target : Uid) (newName : String)
    (s : Store) : Except StoreError (Store × Nat) :=
  let hit := fun (p : Profile) => p.id == target && profilesUpdatePolicy auth p
  .ok ({ s with profiles :=
          s.profiles.map (fun p => if hit p then { p with name := newName } else p) },
       (s.profiles.filter hit).length)

/-- ON DELETE CASCADE: removing the underlying auth identity removes its
profile row, and the cascade on savings.user_id removes every saving it
owns. -/
def deleteIdentityCascade (uid : Uid) (s : Store) : Store :=
  { profiles := s.profiles.filter (fun p => p.id != uid),
    savings := s.savings.filter (fun r => r.user_id != uid) }

/-- Whitespace removed from both ends of a string, as the JS trim method. -/
def jsTrim (s : String) : String :=
  ⟨((s.data.dropWhile Char.isWhitespace).reverse.dropWhile Char.isWhitespace).reverse⟩

/-- Numeric value of a list of decimal digit characters. -/
def digitsToNat (ds : List Char) : Nat :=
  ds.foldl (fun acc c => 10 * acc + (c.toNat - 48)) 0

/-- Unsigned part of the parseFloat model: leading digits, optionally followed
by a dot and further digits; none when no digit can be read. -/
def parseFloatCore (cs : List Char) : Option Rat :=
  let ip := cs.takeWhile Char.isDigit
  match cs.dropWhile Char.isDigit with
  | '.' :: rest =>
    let fp := rest.takeWhile Char.isDigit
    if ip.isEmpty && fp.isEmpty then none
    else some (mkRat (Int.ofNat (digitsToNat ip * 10 ^ fp.length + digitsToNat fp))
                     (10 ^ fp.length))
  | _ => if ip.isEmpty then none else some (mkRat (Int.ofNat (digitsToNat ip)) 1)

/-- Model of JS parseFloat restricted to plain decimal numerals: surrounding
whitespace ignored, optional sign, digits with an optional fractional part;
none models NaN (no digit could be read). Exponent forms are not used by
the component and are not modelled. -/
def parseFloat (str : String) : Option Rat :=
  match (jsTrim str).toList with
  | '-' :: rest => (parseFloatCore rest).map (fun q => -q)
  | '+' :: rest => parseFloatCore rest
  | cs => parseFloatCore cs

/-- Local state of the SavingsTracker component: the loaded rows and the two
controlled form inputs. -/
structure ClientState where
  currentUser : Option Profile
  profiles : List Profile
  savings : List Saving
  amount : String
  description : String
deriving DecidableEq

/-- Component state before the first load. -/
def initialState : ClientState :=
  { currentUser := none, profiles := [], savings := [], amount := "", description := "" }

/-- Shape of one read issued by loadData. -/
inductive ReadReq where
  | profilesAsc : ReadReq
  | ownProfile : Uid → ReadReq
  | savingsDesc : ReadReq
deriving DecidableEq

/-- Reads issued by loadData: none when the identity cannot be resolved (the
function returns before fetching anything), otherwise the three independent
queries in order. -/
def loadReads : Option Uid → List ReadReq
  | none => []
  | some uid => [ReadReq.profilesAsc, ReadReq.ownProfile uid, ReadReq.savingsDesc]

/-- Results of the three reads as the client sees them: a null data field
(failed read, or an absent single row) is none. -/
structure LoadResponses where
  profilesData : Option (List Profile)
  currentProfileData : Option Profile
  savingsData : Option (List Saving)
deriving DecidableEq

/-- The three conditional state updates at the end of loadData: each field is
overwritten only when its fetch returned non-null data. -/
def applyLoad (st : ClientState) (r : LoadResponses) : ClientState :=
  let st1 := match r.profilesData with
    | some d => { st with profiles := d }
    | none => st
  let st2 := match r.currentProfileData with
    | some c => { st1 with currentUser := some c }
    | none => st1
  match r.savingsData with
  | some d => { st2 with savings := d }
  | none => st2

/-- loadData: resolve the identity; with no user it returns with the state
unchanged before issuing any read; otherwise it applies the three conditional
updates to whatever the reads returned. -/
def loadData (auth : Option Uid) (st : ClientState) (r : LoadResponses) : ClientState :=
  match auth with
  | none => st
  | some _ => applyLoad st r

/-- Responses produced by the store for the three reads of loadData. -/
def storeResponses (uid : Uid) (s : Store) : LoadResponses :=
  { profilesData := some (selectProfilesAsc (some uid) s),
    currentProfileData := selectOwnProfile (some uid) uid s,
    savingsData := some (selectSavingsDesc (some uid) s) }

/-- loadData run against a live store with every read succeeding. -/
def loadDataFromStore (auth : Option Uid) (st : ClientState) (s : Store) : ClientState :=
  match auth with
  | none => st
  | some uid => applyLoad st (storeResponses uid s)

/-- Insert request issued by handleAddSaving, none when the handler returns
early. The guard is exactly: no current user, or the amount input is the
empty string. Otherwise the payload sets user_id to the id of the loaded
current user (never a caller-supplied value), amount to the parse of the
amount input, and the description trimmed of surrounding whitespace. -/
def handleAddSavingReq (st : ClientState) : Option SavingInsert :=
  match st.currentUser with
  | none => none
  | some cu =>
    if st.amount = "" then none
    else some { user_id := cu.id, amount := parseFloat st.amount,
                description := jsTrim st.description }

/-- Full handleAddSaving step against the store: on an early return or a store
error the local state and the store are unchanged (the error is only logged,
and there is no retry); on success the two inputs are cleared and the ledger
is fully reloaded. -/
def handleAddSaving (auth : Option Uid) (st : ClientState) (s : Store)
    (newId : String) (now : Nat) : ClientState × Store :=
  match handleAddSavingReq st with
  | none => (st, s)
  | some req =>
    match insertSaving auth req newId now s with
    | .error _ => (st, s)
    | .ok s2 =>
      (loadDataFromStore auth { st with amount := "", description := "" } s2, s2)

/-- Schema invariant of the savings table: every row satisfies
CHECK (amount > 0) and its user_id references an existing profile row. -/
def StoreInv (s : Store) : Prop :=
  ∀ r ∈ s.savings, 0 < r.amount ∧ ∃ p ∈ s.profiles, p.id = r.user_id

/-- One successful statement against the store, by any caller with any
payload, together with the cascade triggered by removing an identity. -/
inductive Step : Store → Store → Prop where
  | insSaving (auth : Option Uid) (req : SavingInsert) (newId : String) (now : Nat)
      {s s2 : Store} : insertSaving auth req newId now s = .ok s2 → Step s s2
  | delSaving (auth : Option Uid) (targetId : String) {s s2 : Store} {n : Nat} :
      deleteSaving auth targetId s = .ok (s2, n) → Step s s2
  | insProfile (auth : Option Uid) (req : ProfileInsert) (now : Nat) {s s2 : Store} :
      insertProfile auth req now s = .ok s2 → Step s s2
  | updProfile (auth : Option Uid) (target : Uid) (newName : String) {s s2 : Store}
      {n : Nat} : updateProfileName auth target newName s = .ok (s2, n) → Step s s2
  | cascade (uid : Uid) (s : Store) : Step s (deleteIdentityCascade uid s)

/-- Stores reachable from the empty store by successful statements. -/
def Reachable (s : Store) : Prop :=
  Relation.ReflTransGen Step emptyStore s

/-- calculateTotal: reduce over all loaded savings, summing the amounts. -/
def calculateTotal (savings : List Saving) : Rat :=
  savings.foldl (fun sum r => sum + r.amount) 0

/-- calculateUserTotal: filter to the rows of one user, then the same
reduce. -/
def calculateUserTotal (savings : List Saving) (userId : Uid) : Rat :=
  (savings.filter (fun r => r.user_id == userId)).foldl (fun sum r => sum + r.amount) 0

/-- Distinct user_id values present in a list of savings. -/
def distinctUserIds (savings : List Saving) : List Uid :=
  (savings.map (fun r => r.user_id)).dedup

/-- A concrete two-user store used to instantiate the theorems. -/
def exStore : Store :=
  { profiles := [{ id := "u1", name := "Alice", created_at := 1 },
                 { id := "u2", name := "Bob", created_at := 2 }],
    savings := [{ id := "s1", user_id := "u1", amount := 100, description := "gift", created_at := 3 },
                { id := "s2", user_id := "u2", amount := 75, description := "", created_at := 4 }] }

instance : IsTotal Profile (fun a b => a.created_at ≤ b.created_at) :=
  ⟨fun a b => Nat.le_total a.created_at b.created_at⟩

instance : IsTrans Profile (fun a b => a.created_at ≤ b.created_at) :=
  ⟨fun _ _ _ hab hbc => Nat.le_trans hab hbc⟩

instance : IsTotal Saving (fun a b => b.created_at ≤ a.created_at) :=
  ⟨fun a b => (Nat.le_total b.created_at a.created_at).symm.symm⟩

instance : IsTrans Saving (fun a b => b.created_at ≤ a.created_at) :=
  ⟨fun _ _ _ hab hbc => Nat.le_trans hbc hab⟩

theorem foldl_add_amount (l : List Saving) (init : Rat) :
    l.foldl (fun sum r => sum + r.amount) init
      = init + (l.map (fun r => r.amount)).sum := by
  induction l generalizing init with
  | nil => simp
  | cons a l ih => simp [List.foldl_cons, ih, add_assoc]

theorem sum_map_filter_split (p : Saving → Bool) (f : Saving → Rat) (l : List Saving) :
    (l.map f).sum
      = ((l.filter p).map f).sum + ((l.filter (fun r => ! p r)).map f).sum := by
  induction l with
  | nil => simp
  | cons a l ih =>
    cases hpa : p a <;> simp [List.filter_cons, hpa, ih] <;> ring

theorem sum_partition_by_keys (key : Saving → Uid) (f : Saving → Rat) :
    ∀ K : List Uid, K.Nodup → ∀ l : List Saving, (∀ r ∈ l, key r ∈ K) →
      (l.map f).sum
        = (K.map (fun u => ((l.filter (fun r => key r == u)).map f).sum)).sum := by
  intro K
  induction K with
  | nil =>
    intro _ l hl
    have hnil : l = [] := by
      cases l with
      | nil => rfl
      | cons a l => exact absurd (hl a (List.mem_cons_self a l)) (List.not_mem_nil _)
    simp [hnil]
  | cons u K ih =>
    intro hnd l hl
    have hsplit := sum_map_filter_split (fun r => key r == u) f l
    have hmemK : ∀ r ∈ l.filter (fun r => ! (key r == u)), key r ∈ K := by
      intro r hr
      have hr2 := List.mem_filter.mp hr
      have hku : ¬ key r = u := by
        have := hr2.2
        simpa using this
      rcases List.mem_cons.mp (hl r hr2.1) with h | h
      · exact absurd h hku
      · exact h
    have hrec := ih (List.Nodup.of_cons hnd) (l.filter (fun r => ! (key r == u))) hmemK
    have hfix : ∀ v ∈ K,
        (l.filter (fun r => ! (key r == u))).filter (fun r => key r == v)
          = l.filter (fun r => key r == v) := by
      intro v hv
      have hvu : v ≠ u := by
        intro heq
        exact (List.nodup_cons.mp hnd).1 (heq ▸ hv)
      rw [List.filter_filter]
      apply List.filter_congr
      intro r _
      cases hkv : key r == v with
      | false => simp
      | true =>
        have : key r = v := by simpa using hkv
        simp [this, hvu]
    calc (l.map f).sum
        = ((l.filter (fun r => key r == u)).map f).sum
            + ((l.filter (fun r => ! (key r == u))).map f).sum := hsplit
      _ = ((l.filter (fun r => key r == u)).map f).sum
            + (K.map (fun v =>
                (((l.filter (fun r => ! (key r == u))).filter (fun r => key r == v)).map f).sum)).sum := by
            rw [hrec]
      _ = ((l.filter (fun r => key r == u)).map f).sum
            + (K.map (fun v => ((l.filter (fun r => key r == v)).map f).sum)).sum := by
            have hmaps : K.map (fun v =>
                  (((l.filter (fun r => ! (key r == u))).filter (fun r => key r == v)).map f).sum)
                = K.map (fun v => ((l.filter (fun r => key r == v)).map f).sum) := by
              apply List.map_congr_left
              intro v hv
              rw [hfix v hv]
            rw [hmaps]
      _ = ((u :: K).map (fun v => ((l.filter (fun r => key r == v)).map f).sum)).sum := by
            simp

/-- C5: calculateTotal over any list of savings equals the sum, over the
distinct user_id values present in the list, of calculateUserTotal for that
user: the per-user subtotals are a disjoint partition of the grand total. -/
theorem calculateTotal_eq_sum_userTotals (S : List Saving) :
    calculateTotal S = ((distinctUserIds S).map (calculateUserTotal S)).sum := by
  unfold calculateTotal calculateUserTotal distinctUserIds
  rw [foldl_add_amount, zero_add]
  have hmaps : (S.map (fun r => r.user_id)).dedup.map
        (fun u => (S.filter (fun r => r.user_id == u)).foldl (fun sum r => sum + r.amount) 0)
      = (S.map (fun r => r.user_id)).dedup.map
        (fun u => ((S.filter (fun r => r.user_id == u)).map (fun r => r.amount)).sum) := by
    apply List.map_congr_left
    intro u _
    rw [foldl_add_amount, zero_add]
  rw [hmaps]
  exact sum_partition_by_keys (fun r => r.user_id) (fun r => r.amount)
    ((S.map (fun r => r.user_id)).dedup) (List.nodup_dedup _)
    S (fun r hr => List.mem_dedup.mpr (List.mem_map_of_mem _ hr))

theorem store_set_savings_self {s : Store} {l : List Saving} (h : l = s.savings) :
    Store.mk s.profiles l = s := by
  cases s
  cases h
  rfl

/-- C1: a delete by an authenticated caller never raises an error, leaves the
profiles table untouched, removes exactly the rows carrying the requested id
and owned by the caller, removes at least one row when such a row exists, and
when no such row exists (a row owned by a different identity, or an absent or
already-deleted id) returns the store unchanged with zero rows affected,
indistinguishably in every such case. -/
theorem deleteSaving_removes_iff_owned (uid : Uid) (tid : String) (s : Store) :
    ∃ s2 n, deleteSaving (some uid) tid s = .ok (s2, n) ∧
      s2.profiles = s.profiles ∧
      (∀ r, r ∈ s2.savings ↔ r ∈ s.savings ∧ ¬ (r.id = tid ∧ r.user_id = uid)) ∧
      ((∃ r ∈ s.savings, r.id = tid ∧ r.user_id = uid) → 0 < n) ∧
      ((∀ r ∈ s.savings, ¬ (r.id = tid ∧ r.user_id = uid)) → s2 = s ∧ n = 0) := by
  have hb : ∀ r : Saving, ¬ (r.id = tid ∧ r.user_id = uid) →
      (r.id == tid && savingsDeletePolicy (some uid) r) = false := by
    intro r hna
    by_cases hid : r.id = tid
    · by_cases hud : r.user_id = uid
      · exact absurd ⟨hid, hud⟩ hna
      · simp [savingsDeletePolicy, hid, Ne.symm hud]
    · simp [hid]
  refine ⟨_, _, rfl, rfl, ?_, ?_, ?_⟩
  · intro r
    rw [List.mem_filter]
    constructor
    · rintro ⟨hr, hp⟩
      refine ⟨hr, ?_⟩
      rintro ⟨hid, hud⟩
      simp [savingsDeletePolicy, hid, hud] at hp
    · rintro ⟨hr, hna⟩
      refine ⟨hr, ?_⟩
      simp [hb r hna]
  · rintro ⟨r, hr, hid, hown⟩
    apply List.length_pos.mpr
    apply List.ne_nil_of_mem (a := r)
    apply List.mem_filter.mpr
    refine ⟨hr, ?_⟩
    simp [savingsDeletePolicy, hid, hown]
  · intro hnone
    have hkeep : s.savings.filter
        (fun r => ! (r.id == tid && savingsDeletePolicy (some uid) r)) = s.savings := by
      apply List.filter_eq_self.mpr
      intro r hr
      simp [hb r (hnone r hr)]
    have hdrop : s.savings.filter
        (fun r => r.id == tid && savingsDeletePolicy (some uid) r) = [] := by
      apply List.filter_eq_nil_iff.mpr
      intro r hr
      simp [hb r (hnone r hr)]
    exact ⟨store_set_savings_self hkeep, by rw [hdrop]; rfl⟩

/-- Instantiation of the delete theorem at a concrete store and caller. -/
theorem deleteSaving_removes_iff_owned_witness :
    ∃ s2 n, deleteSaving (some "u1") "s1" exStore = .ok (s2, n) ∧
      s2.profiles = exStore.profiles ∧
      (∀ r, r ∈ s2.savings ↔ r ∈ exStore.savings ∧ ¬ (r.id = "s1" ∧ r.user_id = "u1")) ∧
      ((∃ r ∈ exStore.savings, r.id = "s1" ∧ r.user_id = "u1") → 0 < n) ∧
      ((∀ r ∈ exStore.savings, ¬ (r.id = "s1" ∧ r.user_id = "u1")) → s2 = exStore ∧ n = 0) :=
  deleteSaving_removes_iff_owned "u1" "s1" exStore

/-- C2: an insert whose user_id names a different identity than the caller is
rejected by the row-level policy with no row created, and every insert
request the client issues carries the id of its own loaded current user
(never a caller-supplied value), together with the parsed amount and the
trimmed description. -/
theorem insert_foreign_user_rejected (A B : Uid) (hAB : A ≠ B)
    (req : SavingInsert) (hB : req.user_id = B) (newId : String) (now : Nat)
    (s : Store) (st : ClientState) (r : SavingInsert)
    (hr : handleAddSavingReq st = some r) :
    insertSaving (some A) req newId now s = .error .rlsViolation ∧
    ∃ cu, st.currentUser = some cu ∧ r.user_id = cu.id ∧
      r.amount = parseFloat st.amount ∧ r.description = jsTrim st.description := by
  constructor
  · have hpol : savingsInsertPolicy (some A) req.user_id = false := by
      simp [savingsInsertPolicy, hB, hAB]
    simp [insertSaving, hpol]
  · cases hcu : st.currentUser with
    | none => simp [handleAddSavingReq, hcu] at hr
    | some cu =>
      by_cases hamt : st.amount = ""
      · simp [handleAddSavingReq, hcu, hamt] at hr
      · have hr2 : some ({ user_id := cu.id, amount := parseFloat st.amount, description := jsTrim st.description } : SavingInsert) = some r := by
          rw [← hr]
          simp [handleAddSavingReq, hcu, hamt]
        have hr3 := Option.some.inj hr2
        exact ⟨cu, rfl, by rw [← hr3], by rw [← hr3], by rw [← hr3]⟩

/-- Instantiation of the foreign-insert theorem: identity u1 submitting a row
for u2 is rejected, and a state with a loaded user u1 and a non-empty amount
issues a request tagged u1. -/
theorem insert_foreign_user_rejected_witness :
    insertSaving (some "u1") { user_id := "u2", amount := some 50, description := "" }
        "s9" 9 exStore = .error .rlsViolation ∧
    ∃ cu, ({ currentUser := some { id := "u1", name := "Alice", created_at := 1 },
             profiles := [], savings := [], amount := "50",
             description := "" } : ClientState).currentUser = some cu ∧
      ({ user_id := "u1", amount := some 50, description := "" } : SavingInsert).user_id = cu.id ∧
      ({ user_id := "u1", amount := some 50, description := "" } : SavingInsert).amount
        = parseFloat "50" ∧
      ({ user_id := "u1", amount := some 50, description := "" } : SavingInsert).description
        = jsTrim "" :=
  insert_foreign_user_rejected "u1" "u2" (by decide)
    { user_id := "u2", amount := some 50, description := "" } rfl "s9" 9 exStore
    { currentUser := some { id := "u1", name := "Alice", created_at := 1 },
      profiles := [], savings := [], amount := "50", description := "" }
    { user_id := "u1", amount := some 50, description := "" } (by decide)

/-- C3: an authenticated read of profiles or savings returns the complete
shared set, with membership preserved in both directions and no ownership
filter, and a successful load stores exactly the returned row sets, applying
no further filtering on the client. -/
theorem authenticated_reads_complete (uid : Uid) (s : Store) (st : ClientState) :
    (∀ p, p ∈ selectProfilesAsc (some uid) s ↔ p ∈ s.profiles) ∧
    (∀ r, r ∈ selectSavingsDesc (some uid) s ↔ r ∈ s.savings) ∧
    (loadDataFromStore (some uid) st s).profiles = selectProfilesAsc (some uid) s ∧
    (loadDataFromStore (some uid) st s).savings = selectSavingsDesc (some uid) s := by
  refine ⟨?_, ?_, ?_, ?_⟩
  · intro p
    simp [selectProfilesAsc, List.mem_filter, profilesSelectPolicy]
  · intro r
    simp [selectSavingsDesc, List.mem_filter, savingsSelectPolicy]
  · cases h : selectOwnProfile (some uid) uid s <;>
      simp [loadDataFromStore, applyLoad, storeResponses, h]
  · cases h : selectOwnProfile (some uid) uid s <;>
      simp [loadDataFromStore, applyLoad, storeResponses, h]

/-- Client state with a loaded current user and the literal -10 typed in the
amount input. -/
def negAmountState : ClientState :=
  { currentUser := some { id := "u1", name := "Alice", created_at := 1 },
    profiles := [], savings := [], amount := "-10", description := "" }

/-- C6 counterexample: with an identity present and the amount input "-10",
which parses to the non-positive number -10, the handler does issue an insert
request, so it is false that the client sends no insert for an input string
parsing to a non-positive number. -/
theorem addSaving_sends_insert_for_negative :
    parseFloat negAmountState.amount = some (-10) ∧ (-10 : Rat) ≤ 0 ∧
    handleAddSavingReq negAmountState
      = some { user_id := "u1", amount := some (-10), description := "" } :=
  ⟨by decide, by decide, by decide⟩

/-- C6 amended: the handler is a no-op (no insert request submitted, state
untouched) exactly when the identity is missing or the amount input is the
empty string; when a request whose parsed amount is non-positive is
submitted, the store rejects it, no row is created, and the handler leaves
the client state and the store unchanged. -/
theorem addSaving_noop_guard_and_store_rejects (st st2 : ClientState) (uid : Uid)
    (store : Store) (req : SavingInsert) (newId : String) (now : Nat) (q : Rat)
    (hreq : handleAddSavingReq st = some req) (hq : req.amount = some q)
    (hle : q ≤ 0) :
    (handleAddSavingReq st2 = none ↔ (st2.currentUser = none ∨ st2.amount = "")) ∧
    (∃ e, insertSaving (some uid) req newId now store = .error e) ∧
    handleAddSaving (some uid) st store newId now = (st, store) := by
  have herr : ∃ e, insertSaving (some uid) req newId now store = .error e := by
    by_cases hpol : savingsInsertPolicy (some uid) req.user_id
    · exact ⟨.checkViolation, by simp [insertSaving, hpol, hq, hle]⟩
    · exact ⟨.rlsViolation, by simp [insertSaving, hpol]⟩
  refine ⟨?_, herr, ?_⟩
  · cases hcu : st2.currentUser with
    | none => simp [handleAddSavingReq, hcu]
    | some cu =>
      by_cases hamt : st2.amount = "" <;>
        simp [handleAddSavingReq, hcu, hamt]
  · obtain ⟨e, he⟩ := herr
    simp [handleAddSaving, hreq, he]

/-- Instantiation of the amended C6 theorem at the -10 state: the guard lets
the request through, and the store rejects it with everything unchanged. -/
theorem addSaving_noop_guard_and_store_rejects_witness :
    (handleAddSavingReq initialState = none
        ↔ (initialState.currentUser = none ∨ initialState.amount = "")) ∧
    (∃ e, insertSaving (some "u1")
        { user_id := "u1", amount := some (-10), description := "" } "s9" 9 exStore
          = .error e) ∧
    handleAddSaving (some "u1") negAmountState exStore "s9" 9
      = (negAmountState, exStore) :=
  addSaving_noop_guard_and_store_rejects negAmountState initialState "u1" exStore
    { user_id := "u1", amount := some (-10), description := "" } "s9" 9 (-10)
    (by decide) rfl (by decide)

theorem storeInv_empty : StoreInv emptyStore := by
  intro r hr
  simp [emptyStore] at hr

theorem storeInv_step {s s2 : Store} (hinv : StoreInv s) (hstep : Step s s2) :
    StoreInv s2 := by
  cases hstep with
  | insSaving auth req newId now h =>
    by_cases hpol : savingsInsertPolicy auth req.user_id
    · cases hamt : req.amount with
      | none => simp [insertSaving, hpol, hamt] at h
      | some q =>
        by_cases hq : q ≤ 0
        · simp [insertSaving, hpol, hamt, hq] at h
        · by_cases hfk : s.profiles.any (fun p => p.id == req.user_id)
          · simp [insertSaving, hpol, hamt, hq, hfk] at h
            intro r hr
            rw [← h] at hr
            rcases List.mem_cons.mp hr with hnew | hold
            · subst hnew
              refine ⟨lt_of_not_le hq, ?_⟩
              obtain ⟨p, hp, hpid⟩ := List.any_eq_true.mp hfk
              exact ⟨p, by rw [← h]; exact hp, by simpa using hpid⟩
            · obtain ⟨hamt2, p, hp, hpid⟩ := hinv r hold
              refine ⟨hamt2, p, ?_, hpid⟩
              rw [← h]
              exact hp
          · simp [insertSaving, hpol, hamt, hq, hfk] at h
    · simp [insertSaving, hpol] at h
  | delSaving auth targetId h =>
    simp only [deleteSaving, Except.ok.injEq, Prod.mk.injEq] at h
    intro r hr
    rw [← h.1] at hr
    have hr2 := List.mem_filter.mp hr
    obtain ⟨hamt2, p, hp, hpid⟩ := hinv r hr2.1
    exact ⟨hamt2, p, by rw [← h.1]; exact hp, hpid⟩
  | insProfile auth req now h =>
    by_cases hpol : profilesInsertPolicy auth req.id
    · by_cases hpk : s.profiles.any (fun p => p.id == req.id)
      · simp [insertProfile, hpol, hpk] at h
      · simp [insertProfile, hpol, hpk] at h
        intro r hr
        rw [← h] at hr
        obtain ⟨hamt2, p, hp, hpid⟩ := hinv r hr
        refine ⟨hamt2, p, ?_, hpid⟩
        rw [← h]
        exact List.mem_cons_of_mem _ hp
    · simp [insertProfile, hpol] at h
  | updProfile auth target newName h =>
    simp only [updateProfileName, Except.ok.injEq, Prod.mk.injEq] at h
    intro r hr
    rw [← h.1] at hr
    obtain ⟨hamt2, p, hp, hpid⟩ := hinv r hr
    rw [← h.1]
    refine ⟨hamt2, ?_⟩
    by_cases hhit : (p.id == target && profilesUpdatePolicy auth p) = true
    · refine ⟨{ p with name := newName }, ?_, hpid⟩
      have := List.mem_map_of_mem
        (fun p => if p.id == target && profilesUpdatePolicy auth p
          then { p with name := newName } else p) hp
      simpa [hhit] using this
    · refine ⟨p, ?_, hpid⟩
      have := List.mem_map_of_mem
        (fun p => if p.id == target && profilesUpdatePolicy auth p
          then { p with name := newName } else p) hp
      simpa [hhit] using this
  | cascade uid =>
    intro r hr
    have hr2 := List.mem_filter.mp hr
    have hru : r.user_id ≠ uid := by simpa using hr2.2
    obtain ⟨hamt2, p, hp, hpid⟩ := hinv r hr2.1
    refine ⟨hamt2, p, ?_, hpid⟩
    apply List.mem_filter.mpr
    refine ⟨hp, ?_⟩
    simp [hpid, hru]

theorem storeInv_reachable {s : Store} (h : Reachable s) : StoreInv s := by
  induction h with
  | refl => exact storeInv_empty
  | tail _ hstep ih => exact storeInv_step ih hstep

/-- C4: every store reachable by successful statements satisfies the savings
invariant (every row has strictly positive amount and a user_id referencing
an existing profile), and an insert whose amount is non-positive is always
rejected at the storage boundary with no row created. -/
theorem reachable_invariant_and_nonpositive_rejected (s : Store) (h : Reachable s)
    (auth : Option Uid) (req : SavingInsert) (newId : String) (now : Nat)
    (q : Rat) (hq : req.amount = some q) (hle : q ≤ 0) :
    StoreInv s ∧ ∃ e, insertSaving auth req newId now s = .error e := by
  refine ⟨storeInv_reachable h, ?_⟩
  by_cases hpol : savingsInsertPolicy auth req.user_id
  · exact ⟨.checkViolation, by simp [insertSaving, hpol, hq, hle]⟩
  · exact ⟨.rlsViolation, by simp [insertSaving, hpol]⟩

/-- Instantiation of the invariant theorem at the empty store with a rejected
insert of amount -10. -/
theorem reachable_invariant_and_nonpositive_rejected_witness :
    StoreInv emptyStore ∧
    ∃ e, insertSaving (some "u1")
      { user_id := "u1", amount := some (-10), description := "" } "s1" 7 emptyStore
        = .error e :=
  reachable_invariant_and_nonpositive_rejected emptyStore Relation.ReflTransGen.refl
    (some "u1") { user_id := "u1", amount := some (-10), description := "" } "s1" 7
    (-10) rfl (by decide)

/-- C7: with no resolvable identity, every table read returns the empty or
neutral result rather than an error, every write statement is rejected or
affects zero rows, loadData issues no reads and leaves its state unchanged
(so from the initial state it yields empty profiles and savings), and the add
handler with no loaded user submits nothing. -/
theorem unauthenticated_all_denied (s : Store) (st st2 : ClientState)
    (req : SavingInsert) (preq : ProfileInsert) (newId tid target newName : String)
    (now : Nat) (r : LoadResponses) (h2 : st2.currentUser = none) :
    selectProfilesAsc none s = [] ∧
    selectSavingsDesc none s = [] ∧
    selectOwnProfile none target s = none ∧
    insertSaving none req newId now s = .error .rlsViolation ∧
    insertProfile none preq now s = .error .rlsViolation ∧
    deleteSaving none tid s = .ok (s, 0) ∧
    updateProfileName none target newName s = .ok (s, 0) ∧
    loadReads none = [] ∧
    loadData none st r = st ∧
    (loadData none initialState r).profiles = [] ∧
    (loadData none initialState r).savings = [] ∧
    handleAddSavingReq st2 = none := by
  refine ⟨?_, ?_, ?_, ?_, ?_, ?_, ?_, rfl, rfl, rfl, rfl, ?_⟩
  · show List.insertionSort (fun a b => a.created_at ≤ b.created_at)
      (List.filter (profilesSelectPolicy none) s.profiles) = []
    rw [show profilesSelectPolicy none = (fun _ : Profile => false) from rfl]
    simp [List.insertionSort]
  · show List.insertionSort (fun a b => b.created_at ≤ a.created_at)
      (List.filter (savingsSelectPolicy none) s.savings) = []
    rw [show savingsSelectPolicy none = (fun _ : Saving => false) from rfl]
    simp [List.insertionSort]
  · show (List.filter (profilesSelectPolicy none) s.profiles).find?
      (fun p => p.id == target) = none
    rw [show profilesSelectPolicy none = (fun _ : Profile => false) from rfl]
    simp
  · simp [insertSaving, savingsInsertPolicy]
  · simp [insertProfile, profilesInsertPolicy]
  · have hkeep : s.savings.filter
        (fun r => ! (r.id == tid && savingsDeletePolicy none r)) = s.savings := by
      apply List.filter_eq_self.mpr
      intro r _
      simp [savingsDeletePolicy]
    have hdrop : s.savings.filter
        (fun r => r.id == tid && savingsDeletePolicy none r) = [] := by
      apply List.filter_eq_nil_iff.mpr
      intro r _
      simp [savingsDeletePolicy]
    simp only [deleteSaving, hkeep, hdrop]
    rfl
  · have hfix : ∀ p : Profile, (if p.id == target && profilesUpdatePolicy none p
        then { p with name := newName } else p) = p := by
      intro p
      simp [profilesUpdatePolicy]
    have hmap : s.profiles.map
        (fun p => if p.id == target && profilesUpdatePolicy none p
          then { p with name := newName } else p) = s.profiles := by
      rw [List.map_congr_left (fun p _ => hfix p)]
      exact List.map_id _
    have hfilter : s.profiles.filter
        (fun p => p.id == target && profilesUpdatePolicy none p) = [] := by
      apply List.filter_eq_nil_iff.mpr
      intro p _
      simp [profilesUpdatePolicy]
    simp only [updateProfileName, hmap, hfilter]
    rfl
  · simp [handleAddSavingReq, h2]

/-- Instantiation of the unauthenticated theorem at a concrete store, request
payloads, and the initial client state. -/
theorem unauthenticated_all_denied_witness :
    selectProfilesAsc none exStore = [] ∧
    selectSavingsDesc none exStore = [] ∧
    selectOwnProfile none "u1" exStore = none ∧
    insertSaving none { user_id := "u1", amount := some 5, description := "" }
      "n1" 3 exStore = .error .rlsViolation ∧
    insertProfile none { id := "u1", name := "Alice" } 3 exStore
      = .error .rlsViolation ∧
    deleteSaving none "s1" exStore = .ok (exStore, 0) ∧
    updateProfileName none "u1" "Alicia" exStore = .ok (exStore, 0) ∧
    loadReads none = [] ∧
    loadData none initialState { profilesData := none, currentProfileData := none, savingsData := none } = initialState ∧
    (loadData none initialState { profilesData := none, currentProfileData := none, savingsData := none }).profiles = [] ∧
    (loadData none initialState { profilesData := none, currentProfileData := none, savingsData := none }).savings = [] ∧
    handleAddSavingReq initialState = none :=
  unauthenticated_all_denied exStore initialState initialState
    { user_id := "u1", amount := some 5, description := "" }
    { id := "u1", name := "Alice" } "n1" "s1" "u1" "Alicia" 3
    { profilesData := none, currentProfileData := none, savingsData := none } rfl

/-- C8: a failed read leaves the corresponding previously loaded field
unchanged rather than clearing it (the load flow always returns a state, it
does not crash), and a rejected insert leaves the entire client state, the
two input fields included, and the store unchanged, with no retry. -/
theorem failures_leave_state_unchanged (auth : Option Uid) (st : ClientState)
    (store : Store) (r : LoadResponses) (req : SavingInsert) (newId : String)
    (now : Nat) (e : StoreError)
    (hreq : handleAddSavingReq st = some req)
    (herr : insertSaving auth req newId now store = .error e) :
    handleAddSaving auth st store newId now = (st, store) ∧
    (r.profilesData = none → (loadData auth st r).profiles = st.profiles) ∧
    (r.currentProfileData = none → (loadData auth st r).currentUser = st.currentUser) ∧
    (r.savingsData = none → (loadData auth st r).savings = st.savings) := by
  refine ⟨by simp [handleAddSaving, hreq, herr], ?_, ?_, ?_⟩ <;>
  · rcases r with ⟨pd, cd, sd⟩
    cases auth <;> cases pd <;> cases cd <;> cases sd <;>
      simp [loadData, applyLoad]

/-- Instantiation of the failure theorem: the rejected -10 insert leaves the
client state and store untouched, and all-failed reads keep every field. -/
theorem failures_leave_state_unchanged_witness :
    handleAddSaving (some "u1") negAmountState exStore "s9" 9
      = (negAmountState, exStore) ∧
    (({ profilesData := none, currentProfileData := none, savingsData := none } : LoadResponses).profilesData = none →
      (loadData (some "u1") negAmountState { profilesData := none, currentProfileData := none, savingsData := none }).profiles = negAmountState.profiles) ∧
    (({ profilesData := none, currentProfileData := none, savingsData := none } : LoadResponses).currentProfileData = none →
      (loadData (some "u1") negAmountState { profilesData := none, currentProfileData := none, savingsData := none }).currentUser = negAmountState.currentUser) ∧
    (({ profilesData := none, currentProfileData := none, savingsData := none } : LoadResponses).savingsData = none →
      (loadData (some "u1") negAmountState { profilesData := none, currentProfileData := none, savingsData := none }).savings = negAmountState.savings) :=
  failures_leave_state_unchanged (some "u1") negAmountState exStore
    { profilesData := none, currentProfileData := none, savingsData := none }
    { user_id := "u1", amount := some (-10), description := "" } "s9" 9
    .checkViolation (by decide) rfl

/-- C9: loadData issues exactly the three independent reads, and the store
answers them with all profiles sorted by creation time ascending, the own
profile read returning at most one row which carries the caller id, and all
savings sorted by creation time descending, newest first. -/
theorem loadLedger_three_reads (uid : Uid) (s : Store) :
    loadReads (some uid)
      = [ReadReq.profilesAsc, ReadReq.ownProfile uid, ReadReq.savingsDesc] ∧
    (selectProfilesAsc (some uid) s).Perm s.profiles ∧
    List.Sorted (fun a b : Profile => a.created_at ≤ b.created_at)
      (selectProfilesAsc (some uid) s) ∧
    (∀ q : Profile, selectOwnProfile (some uid) uid s = some q →
      q.id = uid ∧ q ∈ s.profiles) ∧
    (selectSavingsDesc (some uid) s).Perm s.savings ∧
    List.Sorted (fun a b : Saving => b.created_at ≤ a.created_at)
      (selectSavingsDesc (some uid) s) := by
  have hfp : s.profiles.filter (profilesSelectPolicy (some uid)) = s.profiles :=
    List.filter_eq_self.mpr (fun a _ => rfl)
  have hfs : s.savings.filter (savingsSelectPolicy (some uid)) = s.savings :=
    List.filter_eq_self.mpr (fun a _ => rfl)
  refine ⟨rfl, ?_, ?_, ?_, ?_, ?_⟩
  · unfold selectProfilesAsc
    rw [hfp]
    exact List.perm_insertionSort _ _
  · exact List.sorted_insertionSort _ _
  · intro q hq
    unfold selectOwnProfile at hq
    constructor
    · have := List.find?_some hq
      simpa using this
    · have := List.mem_of_find?_eq_some hq
      exact (List.mem_filter.mp this).1
  · unfold selectSavingsDesc
    rw [hfs]
    exact List.perm_insertionSort _ _
  · exact List.sorted_insertionSort _ _

/-- C10: loadData never clears a field: with no identity it issues no reads
and returns the state unchanged, and otherwise each of the three loaded
fields is either kept or overwritten with exactly the data its fetch
returned, while the two input fields are never touched, for every
combination of fetch outcomes. -/
theorem loadData_never_clears (auth : Option Uid) (st : ClientState)
    (r : LoadResponses) :
    (auth = none → loadReads auth = [] ∧ loadData auth st r = st) ∧
    ((loadData auth st r).profiles = st.profiles ∨
      r.profilesData = some (loadData auth st r).profiles) ∧
    ((loadData auth st r).currentUser = st.currentUser ∨
      r.currentProfileData = (loadData auth st r).currentUser) ∧
    ((loadData auth st r).savings = st.savings ∨
      r.savingsData = some (loadData auth st r).savings) ∧
    (loadData auth st r).amount = st.amount ∧
    (loadData auth st r).description = st.description := by
  rcases r with ⟨pd, cd, sd⟩
  cases auth <;> cases pd <;> cases cd <;> cases sd <;>
    simp [loadData, applyLoad, loadReads]

end Tabungan
